import Mathlib

/-!
Verification development for the SLO Burn Lab (Operational Excellence Game).

The definitions below are a shallow embedding of the core logic of
src/src/App.jsx: per-event goodness classification (goodByPolicy),
windowed burn-rate aggregation (burnStats), the MWMB + demo alert
evaluator (checkAlerts), alert-store deduplication and lifecycle
(ackAlert / resolveAlert), the bounded event history, per-event SLO
compliance (computeSloCompliance) and the expected-bad-percent display
helper (expectedBadPercent / expectedSlo).

Modelling conventions:
- JavaScript numbers are modelled as rationals (ℚ); JavaScript
  `Infinity` (the burn rate at a zero error budget) is modelled by the
  dedicated `BurnVal.inf` constructor, with `NaN` cases (empty-window
  availability / percentile) modelled as `Option.none`, matching the
  JS semantics that any `<` / `>` comparison against NaN is false.
- Alert `type` strings are constant labels in the source; they are
  modelled by the enumeration `AlertType`, with `AlertType.label`
  giving the exact source string (proved injective, so string-keyed
  deduplication coincides with `AlertType`-keyed deduplication).
- `Math.random()`-derived values (alert ids via `uuid()`, the fallback
  manual-log latency) are passed in as explicit parameters.
- The human-readable alert message template is modelled by `MsgData`,
  which records exactly the data interpolated into the source string
  (threshold, window lengths, both burn values, the bakeSLI flag, …);
  the `toFixed` display rounding is presentation only.
-/

namespace SloBurnLab

/-- An event record, restricted to the fields the core logic reads:
`is_successful`, `latency_ms`, `ts`, `event_type`,
`additional_context.discount_rate` (optional), and the frozen
compliance snapshot `is_slo_compliant` / `slo_violations`. -/
structure Ev where
  is_successful : Bool
  latency_ms : ℚ
  ts : ℤ
  event_type : String
  discount_rate : Option ℚ
  is_slo_compliant : Bool
  slo_violations : List String
  deriving DecidableEq

/-- JS `x.additional_context?.discount_rate || 0`. -/
def discountOr0 : Option ℚ → ℚ
  | none => 0
  | some q => q

/-- Source `goodByPolicy` (App.jsx lines 292-298): an event is good iff
it is successful and, when bakeSLI is on, its latency meets the current
latency target.  The JS null-event guard is not representable (events
are total values here). -/
def goodByPolicy (bake : Bool) (latencyTarget : ℚ) (ev : Ev) : Bool :=
  if !ev.is_successful then false
  else if !bake then true
  else decide (ev.latency_ms ≤ latencyTarget)

/-- Source `windowLogs`: events within the rolling 60s window
(`now - l.ts <= windowMs` with `windowMs = 60_000`). -/
def windowLogs (logs : List Ev) (nowMs : ℤ) : List Ev :=
  logs.filter (fun l => decide (nowMs - l.ts ≤ 60000))

/-- Insertion into an ascending-sorted list (model of JS
`sort((a, b) => a - b)`). -/
def insertLe (x : ℚ) : List ℚ → List ℚ
  | [] => [x]
  | y :: ys => if x ≤ y then x :: y :: ys else y :: insertLe x ys

/-- Ascending insertion sort over rationals. -/
def sortLe (l : List ℚ) : List ℚ := l.foldr insertLe []

/-- Source `percentile` (App.jsx lines 167-172): NaN on an empty array
(modelled as `none`); otherwise the entry of the ascending-sorted array
at index `clamp(ceil(p/100*len) - 1, 0, len-1)`. -/
def percentile (arr : List ℚ) (p : ℚ) : Option ℚ :=
  if arr.length = 0 then none
  else
    let sorted := sortLe arr
    let idx : ℤ := ⌈p / 100 * (arr.length : ℚ)⌉ - 1
    let i : ℕ := (max 0 (min idx ((arr.length : ℤ) - 1))).toNat
    some (sorted.getD i 0)

/-- A burn-rate value: a finite rational or JS `Infinity`. -/
inductive BurnVal
  | fin (q : ℚ)
  | inf
  deriving DecidableEq

/-- JS `burn >= thr` where burn may be `Infinity`. -/
def BurnVal.geQ : BurnVal → ℚ → Bool
  | .fin q, t => decide (t ≤ q)
  | .inf, _ => true

/-- Result record of `burnStats`. -/
structure BurnStatsR where
  total : ℕ
  badPct : ℚ
  burn : BurnVal
  deriving DecidableEq

/-- The window filter of `burnStats`: events with
`ts >= now - seconds*1000` (the cutoff is computed in JS number space,
hence in ℚ). -/
def windowSlice (logs : List Ev) (nowMs : ℤ) (seconds : ℚ) : List Ev :=
  logs.filter (fun l => decide ((nowMs : ℚ) - seconds * 1000 ≤ (l.ts : ℚ)))

/-- Number of policy-bad events in a list. -/
def badCount (logs : List Ev) (bake : Bool) (latencyTarget : ℚ) : ℕ :=
  (logs.filter (fun l => !goodByPolicy bake latencyTarget l)).length

/-- Source `burnStats(seconds)` (App.jsx lines 372-381): filter history
to events with `ts >= now - seconds*1000`; on an empty slice return
`{total: 0, badPct: 0, burn: 0}`; otherwise `badPct = (bad/total)*100`
and `burn = badPct / (100 - sloTarget)` when the error budget
`100 - sloTarget` is positive, else `Infinity`. -/
def burnStats (logs : List Ev) (bake : Bool) (latencyTarget sloTarget : ℚ)
    (nowMs : ℤ) (seconds : ℚ) : BurnStatsR :=
  let sliceL := windowSlice logs nowMs seconds
  let total := sliceL.length
  if total = 0 then ⟨0, 0, .fin 0⟩
  else
    let bad := badCount sliceL bake latencyTarget
    let badPct : ℚ := ((bad : ℚ) / (total : ℚ)) * 100
    let burn := if 0 < 100 - sloTarget then BurnVal.fin (badPct / (100 - sloTarget))
                else BurnVal.inf
    ⟨total, badPct, burn⟩

/-- The eight constant alert-type keys used by `checkAlerts`: the four
MWMB pair labels and the four demo checks. -/
inductive AlertType
  | pageA
  | pageB
  | ticketA
  | ticketB
  | sloBreachDemo
  | latencyDemo
  | saturationDemo
  | businessDemo
  deriving DecidableEq

/-- The exact source string for each alert type key. -/
def AlertType.label : AlertType → String
  | .pageA => "Page: 1h & 5m @14.4x"
  | .pageB => "Page: 6h & 30m @6x"
  | .ticketA => "Ticket: 24h & 2h @3x"
  | .ticketB => "Ticket: 3d & 6h @1x"
  | .sloBreachDemo => "SLO Breach (demo)"
  | .latencyDemo => "Latency p95 (demo)"
  | .saturationDemo => "Saturation (demo)"
  | .businessDemo => "Business Metric (demo)"

/-- The data interpolated into the human-readable message of each alert
(the `toFixed` / `Math.round` display formatting is presentation). -/
inductive MsgData
  | burnMsg (thr shortW longW : ℚ) (sBurn lBurn : BurnVal) (bake : Bool)
  | sloBreach (avail sloT : ℚ)
  | latencyP95 (p95 target : ℚ)
  | saturation (cpu : ℚ)
  | businessMetric (count : ℕ)
  deriving DecidableEq

/-- A candidate alert produced by one evaluation pass (before
deduplication and id/timestamp assignment). -/
structure Candidate where
  type : AlertType
  severity : String
  msg : MsgData
  deriving DecidableEq

/-- A stored alert record. -/
structure Alert where
  id : String
  type : AlertType
  severity : String
  msg : MsgData
  createdAt : ℤ
  ackAt : Option ℤ
  resolvedAt : Option ℤ
  deriving DecidableEq

/-- The component state read (and written) by the evaluator: event
history, alert store, tier, cpu reading, SLI toggles, policy fields,
the expected-display lock, score, and the evaluation time. -/
structure EvalState where
  logs : List Ev
  alerts : List Alert
  tier : String
  cpu : ℚ
  sliAvailability : Bool
  sliLatencyP95 : Bool
  bakeSLI : Bool
  availabilityTarget : ℚ
  latencyP95Target : ℚ
  lockExpected : Bool
  lockedSloTarget : ℚ
  score : ℤ
  now : ℤ

/-- The `burnStats` call on the history and policy of the current state. -/
def burnStatsSt (s : EvalState) (seconds : ℚ) : BurnStatsR :=
  burnStats s.logs s.bakeSLI s.latencyP95Target s.availabilityTarget s.now seconds

/-- Severity of the page-level MWMB pairs (tier dependent). -/
def pageSeverity (tier : String) : String :=
  if tier = "Tier-0" || tier = "Tier-1" then "P0" else "P1"

/-- Severity of the demo SLO-breach alert (tier dependent;
`tier.startsWith("Tier-0")` in the source). -/
def sloBreachSeverity (tier : String) : String :=
  if tier.startsWith "Tier-0" then "P0"
  else if tier = "Tier-1" then "P1"
  else if tier = "Tier-2" then "P2"
  else "P3"

/-- One MWMB window-pair rule (GOOGLE_MWMB entry, with the demo time
scale DEMO_HOUR_SEC = 60 already applied: windows are in demo
seconds). -/
structure Pair where
  key : AlertType
  shortW : ℚ
  longW : ℚ
  thr : ℚ
  severity : String
  deriving DecidableEq

/-- The four standing MWMB pairs built in `checkAlerts` (App.jsx lines
467-496): 1h and 5m at 14.4x, 6h and 30m at 6x, 24h and 2h at 3x, 3d
and 6h at 1x, at demo scale 1h = 60s. -/
def mwmbPairs (tier : String) : List Pair :=
  [⟨.pageA, 5, 60, 14.4, pageSeverity tier⟩,
   ⟨.pageB, 30, 360, 6, pageSeverity tier⟩,
   ⟨.ticketA, 120, 1440, 3, "P2"⟩,
   ⟨.ticketB, 360, 4320, 1, "P2"⟩]

/-- The loop body of `checkAlerts` for one MWMB pair (App.jsx lines
498-510): fire iff the burn of both windows is at or above the threshold and
both windows hold strictly more than 20 events. -/
def pairCandidate (s : EvalState) (p : Pair) : List Candidate :=
  let sst := burnStatsSt s p.shortW
  let lst := burnStatsSt s p.longW
  if sst.burn.geQ p.thr && lst.burn.geQ p.thr
      && decide (20 < sst.total) && decide (20 < lst.total) then
    [⟨p.key, p.severity, .burnMsg p.thr p.shortW p.longW sst.burn lst.burn s.bakeSLI⟩]
  else []

/-- All burn-rate candidate alerts of one evaluation pass. -/
def mwmbCandidates (s : EvalState) : List Candidate :=
  (mwmbPairs s.tier).flatMap (pairCandidate s)

/-- Source `availability`: NaN (`none`) on an empty rolling window,
else the percentage of policy-good events. -/
def availability (s : EvalState) : Option ℚ :=
  let wl := windowLogs s.logs s.now
  if wl.length = 0 then none
  else some ((((wl.filter (goodByPolicy s.bakeSLI s.latencyP95Target)).length : ℚ)
      / (wl.length : ℚ)) * 100)

/-- JS `a < t` where `a` may be NaN (`none`): false on NaN. -/
def optLtB : Option ℚ → ℚ → Bool
  | none, _ => false
  | some a, t => decide (a < t)

/-- JS `a > t` where `a` may be NaN (`none`): false on NaN. -/
def optGtB : Option ℚ → ℚ → Bool
  | none, _ => false
  | some a, t => decide (t < a)

/-- Count of successful `add_promo_code` events in the rolling window
with a discount rate of at least 0.5. -/
def promoCount (s : EvalState) : ℕ :=
  ((windowLogs s.logs s.now).filter (fun l =>
    decide (l.event_type = "add_promo_code") && l.is_successful
      && decide ((0.5 : ℚ) ≤ discountOr0 l.discount_rate))).length

/-- The four demo comparison checks of `checkAlerts` (App.jsx lines
512-561): simple SLO breach, latency p95 breach, CPU saturation, and
the promo-abuse business rule. -/
def demoCandidates (s : EvalState) : List Candidate :=
  let wl := windowLogs s.logs s.now
  let avail := availability s
  let p95 := percentile (wl.map (fun l => l.latency_ms)) 95
  (if s.sliAvailability && optLtB avail s.availabilityTarget
      && decide (50 < wl.length) then
    [⟨.sloBreachDemo, sloBreachSeverity s.tier,
      .sloBreach (avail.getD 0) s.availabilityTarget⟩]
   else [])
  ++ (if s.sliLatencyP95 && optGtB p95 s.latencyP95Target
      && decide (30 < wl.length) then
    [⟨.latencyDemo, "P2", .latencyP95 (p95.getD 0) s.latencyP95Target⟩]
   else [])
  ++ (if decide ((85 : ℚ) < s.cpu) && decide (10 < wl.length) then
    [⟨.saturationDemo, "P2", .saturation s.cpu⟩]
   else [])
  ++ (if decide (200 < promoCount s) then
    [⟨.businessDemo, "P1", .businessMetric (promoCount s)⟩]
   else [])

/-- The full candidate list of one `checkAlerts` evaluation pass:
burn-rate candidates first, then the demo checks, in source order. -/
def checkAlertsCandidates (s : EvalState) : List Candidate :=
  mwmbCandidates s ++ demoCandidates s

/-- The `type` values of the currently-open (non-resolved) alerts,
source `openTypes` set in the `setAlerts` updater (App.jsx lines
565-568). -/
def openTypes (prev : List Alert) : List AlertType :=
  (prev.filter (fun a => decide (a.resolvedAt = none))).map (fun a => a.type)

/-- Candidates that survive deduplication: those whose type is not
among the currently-open alert types. -/
def survivors (cands : List Candidate) (prev : List Alert) : List Candidate :=
  cands.filter (fun c => !decide (c.type ∈ openTypes prev))

/-- Turn surviving candidates into alert records with a fresh
identifier (the `uuid()` supply is the explicit `ids` parameter,
applied at consecutive indices from `k`) and `createdAt` set to the
evaluation time. -/
def mkAlerts (cs : List Candidate) (nowT : ℤ) (ids : ℕ → String) (k : ℕ) : List Alert :=
  match cs with
  | [] => []
  | c :: rest => ⟨ids k, c.type, c.severity, c.msg, nowT, none, none⟩
      :: mkAlerts rest nowT ids (k + 1)

/-- The `setAlerts` updater of `checkAlerts` (App.jsx lines 565-578):
suppress candidates whose type has an open alert, prepend the rest
(newest first) with fresh ids and creation timestamps.  (When nothing
survives the source returns `prev` unchanged, which coincides with
prepending the empty list.) -/
def stepAlerts (cands : List Candidate) (prev : List Alert) (nowT : ℤ)
    (ids : ℕ → String) : List Alert :=
  mkAlerts (survivors cands prev) nowT ids 0 ++ prev

/-- Per-element body of `ackAlert` (App.jsx lines 688-698): set the
acknowledgement timestamp iff the id matches and it is unset. -/
def ackOne (id : String) (nowT : ℤ) (a : Alert) : Alert :=
  if a.id = id ∧ a.ackAt = none then { a with ackAt := some nowT } else a

/-- Source `ackAlert(id)` restricted to its effect on the alert list
(the badge/score bookkeeping does not touch the list). -/
def ackAlert (id : String) (nowT : ℤ) (arr : List Alert) : List Alert :=
  arr.map (ackOne id nowT)

/-- Per-element body of `resolveAlert` (App.jsx lines 700-710): set the
resolution timestamp iff the id matches and it is unset. -/
def resolveOne (id : String) (nowT : ℤ) (a : Alert) : Alert :=
  if a.id = id ∧ a.resolvedAt = none then { a with resolvedAt := some nowT } else a

/-- Source `resolveAlert(id)` restricted to its effect on the alert
list. -/
def resolveAlert (id : String) (nowT : ℤ) (arr : List Alert) : List Alert :=
  arr.map (resolveOne id nowT)

/-- The simulation-batch append (App.jsx lines 445-449):
`next = [...prev, ...batch]`, then `splice(0, next.length - 3000)` when
the ceiling of 3000 is exceeded (drop the oldest). -/
def simAppend (prev batch : List Ev) : List Ev :=
  let next := prev ++ batch
  if 3000 < next.length then next.drop (next.length - 3000) else next

/-- The manual-log append (App.jsx line 685): `[...l, ev].slice(-3000)`
(keep the newest 3000). -/
def manualAppend (l : List Ev) (ev : Ev) : List Ev :=
  let next := l ++ [ev]
  next.drop (next.length - 3000)

/-- Result of `computeSloCompliance`. -/
structure ComplianceR where
  is_slo_compliant : Bool
  slo_violations : List String
  slo_thresholds_latency : ℚ
  deriving DecidableEq

/-- Source `computeSloCompliance` (App.jsx lines 582-591): push
"latency" iff `latency_ms > slo.latencyP95Target`; compliant iff the
violation list is empty. -/
def computeSloCompliance (latencyP95Target : ℚ) (latency_ms : ℚ) : ComplianceR :=
  let violations : List String := if latencyP95Target < latency_ms then ["latency"] else []
  ⟨violations.length = 0, violations, latencyP95Target⟩

/-- Source `expectedBadPercent` (App.jsx lines 174-176). -/
def expectedBadPercent (sloTarget burnThr : ℚ) : ℚ :=
  (100 - sloTarget) * burnThr

/-- Source `expectedSlo` (App.jsx line 348): the locked target when
`lockExpected` is on, else the live availability target. -/
def expectedSlo (s : EvalState) : ℚ :=
  if s.lockExpected then s.lockedSloTarget else s.availabilityTarget

/-- Source `expBadPctAt` (App.jsx line 796). -/
def expBadPctAt (s : EvalState) (thr : ℚ) : ℚ :=
  expectedBadPercent (expectedSlo s) thr

/-- JS `given || fallback` on a possibly-absent number: the fallback
replaces both an absent and a zero (falsy) value. -/
def jsOr (given : Option ℚ) (fallback : ℚ) : ℚ :=
  match given with
  | none => fallback
  | some q => if q = 0 then fallback else q

/-- The latency of a manually pushed log (App.jsx line 659):
`partial.latency_ms || Math.round(100 + Math.random() * 200)`, with the
`Math.random()` draw passed in as `r`. -/
def manualLatency (givenLatency : Option ℚ) (r : ℚ) : ℚ :=
  jsOr givenLatency ((round ((100 : ℚ) + r * 200) : ℤ) : ℚ)

/-- The event built by `pushManualLog` (App.jsx lines 651-686),
restricted to the fields of `Ev`; `r` is the `Math.random()` draw for
the latency fallback. -/
def pushManualLogEv (givenLatency : Option ℚ) (givenSuccess : Option Bool)
    (givenEventType : Option String) (givenDiscount : Option ℚ)
    (r : ℚ) (nowT : ℤ) (latencyP95Target : ℚ) : Ev :=
  let latency := manualLatency givenLatency r
  let succ := givenSuccess.getD true
  let comp := computeSloCompliance latencyP95Target latency
  { is_successful := succ
    latency_ms := latency
    ts := nowT
    event_type := givenEventType.getD "submit_payment"
    discount_rate := some (discountOr0 givenDiscount)
    is_slo_compliant := comp.is_slo_compliant
    slo_violations := comp.slo_violations }

/-- The MWMB fire condition of `checkAlerts` (App.jsx line 501), as a
predicate on the state and one pair. -/
def fires (s : EvalState) (p : Pair) : Prop :=
  (burnStatsSt s p.shortW).burn.geQ p.thr = true
  ∧ (burnStatsSt s p.longW).burn.geQ p.thr = true
  ∧ 20 < (burnStatsSt s p.shortW).total
  ∧ 20 < (burnStatsSt s p.longW).total

/-- Number of candidates of a given type in a candidate list. -/
def candidatesOfType (l : List Candidate) (t : AlertType) : ℕ :=
  l.countP (fun c => decide (c.type = t))

/-- Number of alert records of a given type (open or not). -/
def recordsOfType (l : List Alert) (t : AlertType) : ℕ :=
  l.countP (fun a => decide (a.type = t))

/-- Number of open (non-resolved) alert records of a given type. -/
def openOfType (l : List Alert) (t : AlertType) : ℕ :=
  l.countP (fun a => decide (a.resolvedAt = none) && decide (a.type = t))

/-- The alert-store invariant: at most one open alert per type. -/
def atMostOneOpenPerType (l : List Alert) : Prop :=
  ∀ t, openOfType l t ≤ 1

/-! ### Concrete states used by the end-to-end and counterexample
theorems -/

/-- An all-bad event (a failed request) at timestamp 1000000. -/
def badEv : Ev :=
  ⟨false, 100, 1000000, "submit_payment", some 0, true, []⟩

/-- A good event (successful, fast) at timestamp 1000000. -/
def goodEv : Ev :=
  ⟨true, 100, 1000000, "submit_payment", some 0, true, []⟩

/-- A concrete stored alert used by witnesses. -/
def wAlert : Alert :=
  ⟨"a1", .pageA, "P0", .burnMsg 14.4 5 60 (.fin 1000) (.fin 1000) true, 0, none, none⟩

/-- A successful but slow event (latency 400). -/
def evSlow : Ev :=
  ⟨true, 400, 0, "submit_payment", some 0, true, []⟩

/-- A successful fast event (latency 100). -/
def evFast : Ev :=
  ⟨true, 100, 0, "submit_payment", some 0, true, []⟩

/-- The C1 end-to-end scenario: 25 all-bad events inside every window,
availability target 99.9 (error budget 0.1), evaluated at time
1000000. -/
def c1State : EvalState :=
  ⟨List.replicate 25 badEv, [], "Tier-1", 22, true, true, true,
   99.9, 800, false, 99.9, 0, 1000000⟩

/-- A state with 11 good in-window events and a CPU reading of 90:
identical history and policy to `c9StateLo`, different CPU. -/
def c9StateHi : EvalState :=
  ⟨List.replicate 11 goodEv, [], "Tier-1", 90, true, true, true,
   99.5, 800, false, 99.5, 0, 1000000⟩

/-- Same as `c9StateHi` except the CPU reading is 50. -/
def c9StateLo : EvalState :=
  ⟨List.replicate 11 goodEv, [], "Tier-1", 50, true, true, true,
   99.5, 800, false, 99.5, 0, 1000000⟩

/-! ### Helper lemmas -/

/-- The alert-type labels are pairwise distinct, so deduplication keyed
by the source label strings coincides with deduplication keyed by
`AlertType`. -/
lemma label_injective (t₁ t₂ : AlertType) (h : t₁.label = t₂.label) : t₁ = t₂ := by
  revert h
  cases t₁ <;> cases t₂ <;> simp [AlertType.label]

/-- Rewriting `goodByPolicy` as the single boolean formula of the spec. -/
lemma goodByPolicy_eq (bake : Bool) (latT : ℚ) (ev : Ev) :
    goodByPolicy bake latT ev
      = (ev.is_successful && (!bake || decide (ev.latency_ms ≤ latT))) := by
  cases hs : ev.is_successful <;> cases bake <;> simp [goodByPolicy, hs]

/-! ### Claim theorems -/

/-- Claim C2: the windowed aggregation `burnStats` is totally defined;
on an empty window it returns exactly total 0, badPct 0 and finite burn
0 (for every policy, including a zero or negative error budget), and on
a non-empty window badPct is 100 * badCount / total and burn is
badPct / (100 - availabilityTarget) when that budget is positive, else
positive infinity. -/
theorem C2_burnStats_total_empty_and_formulas (logs : List Ev) (bake : Bool)
    (latT sloT : ℚ) (nowMs : ℤ) (secs : ℚ) :
    ((windowSlice logs nowMs secs).length = 0 →
      burnStats logs bake latT sloT nowMs secs = ⟨0, 0, .fin 0⟩)
    ∧ (0 < (windowSlice logs nowMs secs).length →
      (burnStats logs bake latT sloT nowMs secs).total
          = (windowSlice logs nowMs secs).length
      ∧ (burnStats logs bake latT sloT nowMs secs).badPct
          = 100 * (badCount (windowSlice logs nowMs secs) bake latT : ℚ)
              / ((windowSlice logs nowMs secs).length : ℚ)
      ∧ (burnStats logs bake latT sloT nowMs secs).burn
          = (if 0 < 100 - sloT then
              BurnVal.fin ((burnStats logs bake latT sloT nowMs secs).badPct
                / (100 - sloT))
             else BurnVal.inf)) := by
  constructor
  · intro h
    simp [burnStats, h]
  · intro h
    have hne : ¬ (windowSlice logs nowMs secs).length = 0 := by omega
    refine ⟨?_, ?_, ?_⟩ <;> simp only [burnStats, hne, if_false, ite_false, if_neg]
    · ring

/-- Witness for C2: the empty history yields the exact zero record, and
the 25-bad-event history yields the non-empty-window formulas. -/
theorem C2_burnStats_total_empty_and_formulas_witness :
    burnStats [] true 800 99.9 0 5 = ⟨0, 0, .fin 0⟩
    ∧ (burnStats (List.replicate 25 badEv) true 800 99.9 1000000 5).total
        = (windowSlice (List.replicate 25 badEv) 1000000 5).length := by
  refine ⟨(C2_burnStats_total_empty_and_formulas [] true 800 99.9 0 5).1 rfl, ?_⟩
  refine ((C2_burnStats_total_empty_and_formulas (List.replicate 25 badEv)
    true 800 99.9 1000000 5).2 ?_).1
  have h : (windowSlice (List.replicate 25 badEv) 1000000 5).length = 25 := by
    with_unfolding_all rfl
  omega

/-- Claim C3: an event is good iff it is successful and (bakeSLI is off
or its latency meets the current latency target); under bakeSLI a
successful event with latency 400 against target 200 is bad while the
same event at latency 100 is good, and without bakeSLI both are good;
only the success flag and latency matter (never the frozen per-event
compliance fields), and the target used is the one passed in (the
current policy value). -/
theorem C3_goodByPolicy_iff (bake : Bool) (latT : ℚ) (ev : Ev) :
    (goodByPolicy bake latT ev
      = (ev.is_successful && (!bake || decide (ev.latency_ms ≤ latT))))
    ∧ goodByPolicy true 200 evSlow = false
    ∧ goodByPolicy true 200 evFast = true
    ∧ goodByPolicy false 200 evSlow = true
    ∧ goodByPolicy false 200 evFast = true
    ∧ (∀ ev₂ : Ev, ev₂.is_successful = ev.is_successful →
        ev₂.latency_ms = ev.latency_ms →
        goodByPolicy bake latT ev₂ = goodByPolicy bake latT ev) := by
  refine ⟨goodByPolicy_eq bake latT ev, ?_, ?_, ?_, ?_, ?_⟩
  · simp [goodByPolicy, evSlow]
    norm_num
  · simp [goodByPolicy, evFast]
    norm_num
  · simp [goodByPolicy, evSlow]
  · simp [goodByPolicy, evFast]
  · intro ev₂ hs hl
    rw [goodByPolicy_eq, goodByPolicy_eq, hs, hl]

/-- Witness for C3 at bake = true, target 800, event evFast. -/
theorem C3_goodByPolicy_iff_witness :
    goodByPolicy true 800 evFast
      = (evFast.is_successful && (!true || decide (evFast.latency_ms ≤ 800))) :=
  (C3_goodByPolicy_iff true 800 evFast).1

/-- Claim C5: classification emits the singleton violation list
["latency"] exactly when the latency of the event strictly exceeds the
current latency target, the empty list otherwise, and is_slo_compliant
holds exactly when the violation list is empty; the classifier is a
total pure function. -/
theorem C5_computeSloCompliance_correct (latT lat : ℚ) :
    ((computeSloCompliance latT lat).slo_violations
        = if latT < lat then ["latency"] else [])
    ∧ ((computeSloCompliance latT lat).slo_violations = ["latency"] ↔ latT < lat)
    ∧ ((computeSloCompliance latT lat).slo_violations = [] ↔ ¬ latT < lat)
    ∧ ((computeSloCompliance latT lat).is_slo_compliant = true
        ↔ (computeSloCompliance latT lat).slo_violations = []) := by
  by_cases h : latT < lat <;> simp [computeSloCompliance, h]

/-- Claim C6: expectedBadPercent(target, thr) = (100 - target) * thr,
so expectedBadPercent(99.9, 14.4) = 1.44; the target used by the
display helper is the locked target while lockExpected is set (so a
change of the live availability target does not move it), and the live
availability target when unset; and the lock fields never influence the
candidate alerts produced by an evaluation pass. -/
theorem C6_expectedBadPercent_lock (s : EvalState) (t thr q : ℚ) (b : Bool) :
    expectedBadPercent t thr = (100 - t) * thr
    ∧ expectedBadPercent 99.9 14.4 = 1.44
    ∧ (s.lockExpected = true →
        expBadPctAt { s with availabilityTarget := t } thr = expBadPctAt s thr)
    ∧ (s.lockExpected = false → expectedSlo s = s.availabilityTarget)
    ∧ checkAlertsCandidates { s with lockExpected := b, lockedSloTarget := q }
        = checkAlertsCandidates s := by
  refine ⟨rfl, by norm_num [expectedBadPercent], ?_, ?_, rfl⟩
  · intro h
    simp [expBadPctAt, expectedSlo, h]
  · intro h
    simp [expectedSlo, h]

/-- Witness for C6 at a concrete locked state. -/
theorem C6_expectedBadPercent_lock_witness :
    c9StateHi.lockExpected = false
    ∧ expectedSlo c9StateHi = c9StateHi.availabilityTarget :=
  ⟨rfl, (C6_expectedBadPercent_lock c9StateHi 99 14.4 99 true).2.2.2.1 rfl⟩

/-- Applying `ackOne` twice equals applying it once (with any pair of
timestamps). -/
lemma ackOne_idem (id : String) (n₁ n₂ : ℤ) (a : Alert) :
    ackOne id n₂ (ackOne id n₁ a) = ackOne id n₁ a := by
  by_cases h : a.id = id ∧ a.ackAt = none
  · simp [ackOne, h]
  · simp only [ackOne, if_neg h]

/-- Applying `resolveOne` twice equals applying it once. -/
lemma resolveOne_idem (id : String) (n₁ n₂ : ℤ) (a : Alert) :
    resolveOne id n₂ (resolveOne id n₁ a) = resolveOne id n₁ a := by
  by_cases h : a.id = id ∧ a.resolvedAt = none
  · simp [resolveOne, h]
  · simp only [resolveOne, if_neg h]

/-- Claim C7: acknowledge and resolve set their timestamp only when it
is unset, both are idempotent on the alert list, and both are silent
no-ops when the identifier matches no alert. -/
theorem C7_ack_resolve_idempotent_silent (aid : String) (n₁ n₂ : ℤ)
    (arr : List Alert) :
    ackAlert aid n₂ (ackAlert aid n₁ arr) = ackAlert aid n₁ arr
    ∧ resolveAlert aid n₂ (resolveAlert aid n₁ arr) = resolveAlert aid n₁ arr
    ∧ ((∀ a ∈ arr, a.id ≠ aid) → ackAlert aid n₁ arr = arr)
    ∧ ((∀ a ∈ arr, a.id ≠ aid) → resolveAlert aid n₁ arr = arr)
    ∧ (∀ a : Alert, a.ackAt ≠ none → ackOne aid n₁ a = a)
    ∧ (∀ a : Alert, a.resolvedAt ≠ none → resolveOne aid n₁ a = a) := by
  refine ⟨?_, ?_, ?_, ?_, ?_, ?_⟩
  · simp only [ackAlert, List.map_map]
    exact List.map_congr_left fun a _ => ackOne_idem aid n₁ n₂ a
  · simp only [resolveAlert, List.map_map]
    exact List.map_congr_left fun a _ => resolveOne_idem aid n₁ n₂ a
  · intro h
    have : ∀ a ∈ arr, ackOne aid n₁ a = a := by
      intro a ha
      have := h a ha
      simp [ackOne, this]
    calc ackAlert aid n₁ arr = arr.map id := List.map_congr_left this
      _ = arr := List.map_id arr
  · intro h
    have : ∀ a ∈ arr, resolveOne aid n₁ a = a := by
      intro a ha
      have := h a ha
      simp [resolveOne, this]
    calc resolveAlert aid n₁ arr = arr.map id := List.map_congr_left this
      _ = arr := List.map_id arr
  · intro a ha
    simp [ackOne, ha]
  · intro a ha
    simp [resolveOne, ha]

/-- Witness for C7 on a concrete singleton alert list and an unknown
identifier. -/
theorem C7_ack_resolve_idempotent_silent_witness :
    (∀ a ∈ [wAlert], a.id ≠ "other") ∧ ackAlert "other" 5 [wAlert] = [wAlert] := by
  refine ⟨?_, ?_⟩
  · intro a ha
    simp at ha
    simp [ha, wAlert]
  · refine (C7_ack_resolve_idempotent_silent "other" 5 6 [wAlert]).2.2.1 ?_
    intro a ha
    simp at ha
    simp [ha, wAlert]

/-- Claim C8: both append operations keep the history at or below 3000
events, evict exactly the oldest events (the result is a suffix of the
appended list, so the surviving newest events keep their order and are
unchanged), and do not truncate at all while the ceiling is not
exceeded. -/
theorem C8_bounded_history (prev batch l : List Ev) (ev : Ev) :
    (simAppend prev batch).length = min (prev ++ batch).length 3000
    ∧ simAppend prev batch <:+ prev ++ batch
    ∧ ((prev ++ batch).length ≤ 3000 → simAppend prev batch = prev ++ batch)
    ∧ (manualAppend l ev).length = min (l ++ [ev]).length 3000
    ∧ manualAppend l ev <:+ l ++ [ev]
    ∧ ((l ++ [ev]).length ≤ 3000 → manualAppend l ev = l ++ [ev]) := by
  refine ⟨?_, ?_, ?_, ?_, ?_, ?_⟩
  · simp only [simAppend]
    split_ifs with h
    · simp only [List.length_drop]
      omega
    · omega
  · simp only [simAppend]
    split_ifs with h
    · exact List.drop_suffix _ _
    · exact List.suffix_refl _
  · intro h
    have hnot : ¬ 3000 < (prev ++ batch).length := by omega
    simp only [simAppend, if_neg hnot]
  · simp only [manualAppend, List.length_drop]
    omega
  · exact List.drop_suffix _ _
  · intro h
    have hz : (l ++ [ev]).length - 3000 = 0 := by omega
    simp only [manualAppend, hz, List.drop_zero]

/-- Witness for C8: a short history is appended without truncation. -/
theorem C8_bounded_history_witness :
    ([badEv] ++ [goodEv]).length ≤ 3000
    ∧ simAppend [badEv] [goodEv] = [badEv] ++ [goodEv] := by
  refine ⟨by simp, (C8_bounded_history [badEv] [goodEv] [] badEv).2.2.1 (by simp)⟩

/-- Claim C10: a manual log whose given latency is 0 (or absent — both
are JS-falsy) does not keep latency 0: the event is created with the
substituted draw `Math.round(100 + Math.random() * 200)`, which lies in
[100, 300]; a non-zero given latency is kept verbatim. -/
theorem C10_manual_zero_latency_substituted (r q : ℚ) (hr0 : 0 ≤ r) (hr1 : r < 1) :
    (pushManualLogEv (some 0) none none none r 0 800).latency_ms
        = (pushManualLogEv none none none none r 0 800).latency_ms
    ∧ (pushManualLogEv (some 0) none none none r 0 800).latency_ms ≠ 0
    ∧ 100 ≤ (pushManualLogEv (some 0) none none none r 0 800).latency_ms
    ∧ (pushManualLogEv (some 0) none none none r 0 800).latency_ms ≤ 300
    ∧ (q ≠ 0 → (pushManualLogEv (some q) none none none r 0 800).latency_ms = q) := by
  have hlat : (pushManualLogEv (some 0) none none none r 0 800).latency_ms
      = ((round ((100 : ℚ) + r * 200) : ℤ) : ℚ) := by
    simp [pushManualLogEv, manualLatency, jsOr]
  have hlo : (100 : ℤ) ≤ round ((100 : ℚ) + r * 200) := by
    rw [round_eq, Int.le_floor]
    push_cast
    linarith
  have hhi : round ((100 : ℚ) + r * 200) ≤ 300 := by
    have : (⌊(100 : ℚ) + r * 200 + 1 / 2⌋ : ℤ) < 301 := by
      rw [Int.floor_lt]
      push_cast
      linarith
    rw [round_eq]
    omega
  refine ⟨by simp [pushManualLogEv, manualLatency, jsOr], ?_, ?_, ?_, ?_⟩
  · rw [hlat]
    have : (100 : ℚ) ≤ ((round ((100 : ℚ) + r * 200) : ℤ) : ℚ) := by
      exact_mod_cast hlo
    intro hcontra
    rw [hcontra] at this
    linarith
  · rw [hlat]
    exact_mod_cast hlo
  · rw [hlat]
    exact_mod_cast hhi
  · intro hq
    simp [pushManualLogEv, manualLatency, jsOr, hq]

/-- Splitting an existential over an appended candidate list. -/
lemma exists_type_append (l₁ l₂ : List Candidate) (t : AlertType) :
    (∃ c ∈ l₁ ++ l₂, c.type = t)
      ↔ (∃ c ∈ l₁, c.type = t) ∨ (∃ c ∈ l₂, c.type = t) := by
  constructor
  · rintro ⟨c, hc, hct⟩
    rcases List.mem_append.mp hc with h | h
    · exact Or.inl ⟨c, h, hct⟩
    · exact Or.inr ⟨c, h, hct⟩
  · rintro (⟨c, hc, hct⟩ | ⟨c, hc, hct⟩)
    · exact ⟨c, List.mem_append.mpr (Or.inl hc), hct⟩
    · exact ⟨c, List.mem_append.mpr (Or.inr hc), hct⟩

/-- An existential over a conditional singleton candidate list. -/
lemma exists_type_ite (b : Bool) (x : Candidate) (t : AlertType) :
    (∃ c ∈ (if b then [x] else ([] : List Candidate)), c.type = t)
      ↔ (b = true ∧ x.type = t) := by
  cases b <;> simp

/-- A burn-rate candidate carrying the type of a given pair is produced
by an evaluation pass iff the fire condition of that pair holds. -/
lemma mem_type_checkAlerts (s : EvalState) (p : Pair) (hp : p ∈ mwmbPairs s.tier) :
    (∃ c ∈ checkAlertsCandidates s, c.type = p.key) ↔ fires s p := by
  simp only [mwmbPairs, List.mem_cons, List.not_mem_nil, or_false] at hp
  rcases hp with rfl | rfl | rfl | rfl <;>
  · simp only [checkAlertsCandidates, mwmbCandidates, mwmbPairs, demoCandidates,
      pairCandidate, List.flatMap_cons, List.flatMap_nil, List.append_nil,
      List.append_assoc, exists_type_append, exists_type_ite]
    simp [fires, Bool.and_eq_true, decide_eq_true_eq, and_assoc]

/-- Claim C1: for every state and every MWMB pair, a burn-rate
candidate carrying the type of that pair is produced by an evaluation
pass iff the burn of both windows is at or above the threshold of the
pair and both window
counts are strictly greater than 20; concretely, 25 all-bad events in
both windows under threshold 14.4 and availability target 99.9 yield
badPct 100 and burn 1000 in both windows and make the 14.4x rule fire
exactly once. -/
theorem C1_mwmb_fire_iff_and_scenario :
    (∀ (s : EvalState), ∀ p ∈ mwmbPairs s.tier,
      ((∃ c ∈ checkAlertsCandidates s, c.type = p.key) ↔ fires s p))
    ∧ candidatesOfType (checkAlertsCandidates c1State) .pageA = 1
    ∧ (burnStatsSt c1State 5).total = 25
    ∧ (burnStatsSt c1State 60).total = 25
    ∧ (burnStatsSt c1State 5).badPct = 100
    ∧ (burnStatsSt c1State 60).badPct = 100
    ∧ (burnStatsSt c1State 5).burn = .fin 1000
    ∧ (burnStatsSt c1State 60).burn = .fin 1000
    ∧ fires c1State ⟨.pageA, 5, 60, 14.4, pageSeverity "Tier-1"⟩ := by
  refine ⟨mem_type_checkAlerts, ?_, ?_, ?_, ?_, ?_, ?_, ?_, ?_⟩
  · with_unfolding_all rfl
  · with_unfolding_all rfl
  · with_unfolding_all rfl
  · with_unfolding_all rfl
  · with_unfolding_all rfl
  · with_unfolding_all rfl
  · with_unfolding_all rfl
  · refine ⟨?_, ?_, ?_, ?_⟩
    · with_unfolding_all rfl
    · with_unfolding_all rfl
    · exact Nat.lt_of_sub_eq_succ (by with_unfolding_all rfl)
    · exact Nat.lt_of_sub_eq_succ (by with_unfolding_all rfl)

/-- Witness for C1: the iff instantiated at the concrete 14.4x pair in
the 25-bad-event scenario, with membership discharged concretely. -/
theorem C1_mwmb_fire_iff_and_scenario_witness :
    (⟨.pageA, 5, 60, 14.4, pageSeverity "Tier-1"⟩ : Pair) ∈ mwmbPairs c1State.tier
    ∧ (∃ c ∈ checkAlertsCandidates c1State,
        c.type = (⟨.pageA, 5, 60, 14.4, pageSeverity "Tier-1"⟩ : Pair).key) := by
  have hp : (⟨.pageA, 5, 60, 14.4, pageSeverity "Tier-1"⟩ : Pair)
      ∈ mwmbPairs c1State.tier := by
    simp [mwmbPairs, c1State]
  refine ⟨hp, (C1_mwmb_fire_iff_and_scenario.1 c1State _ hp).mpr ?_⟩
  exact C1_mwmb_fire_iff_and_scenario.2.2.2.2.2.2.2.2

/-- The type map of a conditional singleton candidate list is a
sublist of the singleton of its type. -/
lemma map_type_ite_sublist (b : Bool) (t : AlertType) (sev : String) (m : MsgData) :
    List.Sublist ((if b then [(⟨t, sev, m⟩ : Candidate)] else []).map (fun c => c.type))
      [t] := by
  cases b <;> simp

/-- The eight candidate types of one evaluation pass are pairwise
distinct: the candidate list never holds two candidates of the same
type. -/
lemma types_nodup (s : EvalState) :
    ((checkAlertsCandidates s).map (fun c => c.type)).Nodup := by
  have hsub : List.Sublist ((checkAlertsCandidates s).map (fun c => c.type))
      ([AlertType.pageA] ++ ([AlertType.pageB] ++ ([AlertType.ticketA]
        ++ ([AlertType.ticketB] ++ ([AlertType.sloBreachDemo]
        ++ ([AlertType.latencyDemo] ++ ([AlertType.saturationDemo]
        ++ [AlertType.businessDemo]))))))) := by
    simp only [checkAlertsCandidates, mwmbCandidates, mwmbPairs, demoCandidates,
      pairCandidate, List.flatMap_cons, List.flatMap_nil, List.append_nil,
      List.map_append, List.append_assoc]
    exact (map_type_ite_sublist _ _ _ _).append
      ((map_type_ite_sublist _ _ _ _).append
        ((map_type_ite_sublist _ _ _ _).append
          ((map_type_ite_sublist _ _ _ _).append
            ((map_type_ite_sublist _ _ _ _).append
              ((map_type_ite_sublist _ _ _ _).append
                ((map_type_ite_sublist _ _ _ _).append
                  (map_type_ite_sublist _ _ _ _)))))))
  exact List.Nodup.sublist hsub (by decide)

/-- A candidate list holding a candidate of type `t` has a positive
count of that type. -/
lemma candidatesOfType_pos (cs : List Candidate) (t : AlertType) (c : Candidate)
    (hc : c ∈ cs) (hct : c.type = t) : 0 < candidatesOfType cs t := by
  rw [candidatesOfType, List.countP_pos_iff]
  exact ⟨c, hc, by simp [hct]⟩

/-- With pairwise-distinct types, a candidate list holds at most one
candidate of each type. -/
lemma candidatesOfType_le_one (cs : List Candidate)
    (h : (cs.map (fun c => c.type)).Nodup) (t : AlertType) :
    candidatesOfType cs t ≤ 1 := by
  induction cs with
  | nil => simp [candidatesOfType]
  | cons c rest ih =>
    simp only [List.map_cons, List.nodup_cons] at h
    rw [candidatesOfType, List.countP_cons]
    by_cases hct : c.type = t
    · have hz : candidatesOfType rest t = 0 := by
        rw [candidatesOfType, List.countP_eq_zero]
        intro a ha
        simp only [decide_eq_true_eq]
        intro hat
        exact h.1 (List.mem_map.mpr ⟨a, ha, by rw [hat, hct]⟩)
      rw [candidatesOfType] at hz
      simp [hz, hct]
    · have := ih h.2
      rw [candidatesOfType] at this
      simp [hct]
      omega

/-- A type is among the open types iff there is a positive open count
of it. -/
lemma mem_openTypes_iff (prev : List Alert) (t : AlertType) :
    t ∈ openTypes prev ↔ 0 < openOfType prev t := by
  rw [openOfType, List.countP_pos_iff, openTypes]
  constructor
  · intro h
    rcases List.mem_map.mp h with ⟨a, ha, hat⟩
    rcases List.mem_filter.mp ha with ⟨hmem, hres⟩
    exact ⟨a, hmem, by simp_all⟩
  · rintro ⟨a, ha, hpa⟩
    simp only [Bool.and_eq_true, decide_eq_true_eq] at hpa
    exact List.mem_map.mpr ⟨a, List.mem_filter.mpr ⟨ha, by simp [hpa.1]⟩, hpa.2⟩

/-- Open records of a type are at most all records of that type. -/
lemma openOfType_le_recordsOfType (l : List Alert) (t : AlertType) :
    openOfType l t ≤ recordsOfType l t := by
  rw [openOfType, recordsOfType]
  refine List.countP_mono_left ?_
  intro a _ h
  simp only [Bool.and_eq_true] at h
  exact h.2

/-- Every alert minted from a candidate is open, unacknowledged and
stamped with the evaluation time. -/
lemma mkAlerts_mem (cs : List Candidate) (n : ℤ) (ids : ℕ → String) (k : ℕ) :
    ∀ a ∈ mkAlerts cs n ids k,
      a.createdAt = n ∧ a.ackAt = none ∧ a.resolvedAt = none := by
  induction cs generalizing k with
  | nil =>
    intro a ha
    simp [mkAlerts] at ha
  | cons c rest ih =>
    intro a ha
    rcases List.mem_cons.mp ha with rfl | hmem
    · exact ⟨rfl, rfl, rfl⟩
    · exact ih (k + 1) a hmem

/-- Minted alerts are all open, so their open count of a type is the
candidate count of that type. -/
lemma mkAlerts_open (cs : List Candidate) (n : ℤ) (ids : ℕ → String) (k : ℕ)
    (t : AlertType) :
    openOfType (mkAlerts cs n ids k) t = candidatesOfType cs t := by
  induction cs generalizing k with
  | nil => rfl
  | cons c rest ih =>
    have ih2 := ih (k + 1)
    rw [mkAlerts, openOfType, List.countP_cons, candidatesOfType, List.countP_cons]
    rw [openOfType, candidatesOfType] at ih2
    simp [ih2]

/-- The record count of a type among minted alerts is the candidate
count of that type. -/
lemma mkAlerts_records (cs : List Candidate) (n : ℤ) (ids : ℕ → String) (k : ℕ)
    (t : AlertType) :
    recordsOfType (mkAlerts cs n ids k) t = candidatesOfType cs t := by
  induction cs generalizing k with
  | nil => rfl
  | cons c rest ih =>
    have ih2 := ih (k + 1)
    rw [mkAlerts, recordsOfType, List.countP_cons, candidatesOfType, List.countP_cons]
    rw [recordsOfType, candidatesOfType] at ih2
    simp [ih2]

/-- Surviving candidates keep pairwise-distinct types. -/
lemma survivors_nodup (cands : List Candidate) (prev : List Alert)
    (h : (cands.map (fun c => c.type)).Nodup) :
    ((survivors cands prev).map (fun c => c.type)).Nodup :=
  List.Nodup.sublist ((List.filter_sublist cands).map _) h

/-- Open count after one evaluation pass splits into the surviving
candidates and the previous open count. -/
lemma stepAlerts_open (cands : List Candidate) (prev : List Alert) (n : ℤ)
    (ids : ℕ → String) (t : AlertType) :
    openOfType (stepAlerts cands prev n ids) t
      = candidatesOfType (survivors cands prev) t + openOfType prev t := by
  rw [stepAlerts, openOfType, List.countP_append,
    ← mkAlerts_open (survivors cands prev) n ids 0 t]
  rfl

/-- Record count after one evaluation pass splits into the surviving
candidates and the previous record count. -/
lemma stepAlerts_records (cands : List Candidate) (prev : List Alert) (n : ℤ)
    (ids : ℕ → String) (t : AlertType) :
    recordsOfType (stepAlerts cands prev n ids) t
      = candidatesOfType (survivors cands prev) t + recordsOfType prev t := by
  rw [stepAlerts, recordsOfType, List.countP_append,
    ← mkAlerts_records (survivors cands prev) n ids 0 t]
  rfl

/-- When an open alert of the type exists, no candidate of that type
survives deduplication. -/
lemma survivors_count_zero_of_open (cands : List Candidate) (prev : List Alert)
    (t : AlertType) (h : 0 < openOfType prev t) :
    candidatesOfType (survivors cands prev) t = 0 := by
  rw [candidatesOfType, List.countP_eq_zero]
  intro c hc
  rcases List.mem_filter.mp hc with ⟨_, hq⟩
  simp only [Bool.not_eq_eq_eq_not, Bool.not_true, decide_eq_false_iff_not] at hq
  simp only [decide_eq_true_eq]
  intro hct
  exact hq (hct ▸ (mem_openTypes_iff prev t).mpr h)

/-- When no open alert of the type exists, deduplication keeps every
candidate of that type. -/
lemma survivors_count_eq_of_not_open (cands : List Candidate) (prev : List Alert)
    (t : AlertType) (h : openOfType prev t = 0) :
    candidatesOfType (survivors cands prev) t = candidatesOfType cands t := by
  rw [candidatesOfType, candidatesOfType, survivors, List.countP_filter]
  refine List.countP_congr ?_
  intro c _
  constructor
  · intro hb
    simp only [Bool.and_eq_true] at hb
    exact hb.1
  · intro hb
    simp only [decide_eq_true_eq] at hb
    have hnm : ¬ t ∈ openTypes prev := by
      intro hmem
      have := (mem_openTypes_iff prev t).mp hmem
      omega
    simp [hb, hnm]

/-- Acknowledging never changes the resolution state of an alert. -/
lemma ackOne_resolvedAt (aid : String) (n : ℤ) (a : Alert) :
    (ackOne aid n a).resolvedAt = a.resolvedAt := by
  rw [ackOne]
  split_ifs <;> rfl

/-- Acknowledging never changes the type of an alert. -/
lemma ackOne_type (aid : String) (n : ℤ) (a : Alert) :
    (ackOne aid n a).type = a.type := by
  rw [ackOne]
  split_ifs <;> rfl

/-- Resolving never changes the type of an alert. -/
lemma resolveOne_type (aid : String) (n : ℤ) (a : Alert) :
    (resolveOne aid n a).type = a.type := by
  rw [resolveOne]
  split_ifs <;> rfl

/-- Acknowledging keeps every per-type open count unchanged. -/
lemma ackAlert_openOfType (aid : String) (n : ℤ) (l : List Alert) (t : AlertType) :
    openOfType (ackAlert aid n l) t = openOfType l t := by
  rw [ackAlert, openOfType, openOfType, List.countP_map]
  refine List.countP_congr ?_
  intro a _
  simp only [Function.comp_apply, ackOne_resolvedAt, ackOne_type]

/-- Resolving can only lower each per-type open count. -/
lemma resolveAlert_openOfType_le (aid : String) (n : ℤ) (l : List Alert)
    (t : AlertType) :
    openOfType (resolveAlert aid n l) t ≤ openOfType l t := by
  rw [resolveAlert, openOfType, openOfType, List.countP_map]
  refine List.countP_mono_left ?_
  intro a _ h
  simp only [Function.comp_apply, Bool.and_eq_true, decide_eq_true_eq,
    resolveOne_type] at h
  have hres : a.resolvedAt = none := by
    rcases h with ⟨h1, _⟩
    by_contra hne
    rw [resolveOne, if_neg] at h1
    · exact hne h1
    · intro hcontra
      exact hne hcontra.2
  simp only [Bool.and_eq_true, decide_eq_true_eq]
  exact ⟨hres, h.2⟩

/-- One evaluation pass preserves the at-most-one-open-per-type
invariant, provided the candidate types are pairwise distinct. -/
lemma stepAlerts_preserves_inv (cands : List Candidate) (prev : List Alert)
    (n : ℤ) (ids : ℕ → String)
    (hn : (cands.map (fun c => c.type)).Nodup)
    (hinv : atMostOneOpenPerType prev) :
    atMostOneOpenPerType (stepAlerts cands prev n ids) := by
  intro t
  rw [stepAlerts_open]
  by_cases h : 0 < openOfType prev t
  · rw [survivors_count_zero_of_open cands prev t h]
    have := hinv t
    omega
  · have h0 : openOfType prev t = 0 := by omega
    rw [h0]
    have := candidatesOfType_le_one (survivors cands prev)
      (survivors_nodup cands prev hn) t
    omega

/-- Claim C4: the alert store always holds at most one open alert per
type: the invariant is preserved by every evaluation pass (a candidate
whose type matches an open alert is suppressed) and by the
acknowledge/resolve operations, two consecutive passes producing the
same firing with no intervening resolve leave exactly one record of
that type, and the pass prepends the surviving candidates as records
carrying the evaluation timestamp, no acknowledgement and no
resolution. -/
theorem C4_open_alert_dedup (s : EvalState) (prev : List Alert) (n₁ n₂ : ℤ)
    (ids₁ ids₂ : ℕ → String) (t : AlertType) (c : Candidate)
    (hinv : atMostOneOpenPerType prev)
    (hnone : recordsOfType prev t = 0)
    (hc : c ∈ checkAlertsCandidates s) (hct : c.type = t) :
    atMostOneOpenPerType (stepAlerts (checkAlertsCandidates s) prev n₁ ids₁)
    ∧ recordsOfType
        (stepAlerts (checkAlertsCandidates s)
          (stepAlerts (checkAlertsCandidates s) prev n₁ ids₁) n₂ ids₂) t = 1
    ∧ (∃ added, stepAlerts (checkAlertsCandidates s) prev n₁ ids₁ = added ++ prev
        ∧ ∀ a ∈ added, a.createdAt = n₁ ∧ a.ackAt = none ∧ a.resolvedAt = none)
    ∧ (∀ aid n, atMostOneOpenPerType (ackAlert aid n prev))
    ∧ (∀ aid n, atMostOneOpenPerType (resolveAlert aid n prev)) := by
  have hopen0 : openOfType prev t = 0 := by
    have := openOfType_le_recordsOfType prev t
    omega
  have h1count : candidatesOfType (survivors (checkAlertsCandidates s) prev) t = 1 := by
    rw [survivors_count_eq_of_not_open _ _ _ hopen0]
    have hpos := candidatesOfType_pos (checkAlertsCandidates s) t c hc hct
    have hle := candidatesOfType_le_one (checkAlertsCandidates s) (types_nodup s) t
    omega
  have hrec1 : recordsOfType (stepAlerts (checkAlertsCandidates s) prev n₁ ids₁) t = 1 := by
    rw [stepAlerts_records, h1count, hnone]
  have hopen1 : openOfType (stepAlerts (checkAlertsCandidates s) prev n₁ ids₁) t = 1 := by
    rw [stepAlerts_open, h1count, hopen0]
  refine ⟨?_, ?_, ?_, ?_, ?_⟩
  · exact stepAlerts_preserves_inv _ _ _ _ (types_nodup s) hinv
  · rw [stepAlerts_records, hrec1,
      survivors_count_zero_of_open _ _ _ (by omega : 0 < openOfType
        (stepAlerts (checkAlertsCandidates s) prev n₁ ids₁) t)]
  · exact ⟨mkAlerts (survivors (checkAlertsCandidates s) prev) n₁ ids₁ 0, rfl,
      mkAlerts_mem _ _ _ _⟩
  · intro aid n t'
    rw [ackAlert_openOfType]
    exact hinv t'
  · intro aid n t'
    exact le_trans (resolveAlert_openOfType_le aid n prev t') (hinv t')

/-- Witness for C4: one pass over the empty store in the 25-bad-event
scenario, with the 14.4x page candidate, leaves exactly one pageA
record after a second identical pass. -/
theorem C4_open_alert_dedup_witness :
    recordsOfType
      (stepAlerts (checkAlertsCandidates c1State)
        (stepAlerts (checkAlertsCandidates c1State) [] 1 (fun _ => "u1")) 2
        (fun _ => "u2")) .pageA = 1 := by
  have hc : (⟨.pageA, "P0",
      .burnMsg 14.4 5 60 (.fin 1000) (.fin 1000) true⟩ : Candidate)
      ∈ checkAlertsCandidates c1State := by
    have h : checkAlertsCandidates c1State
        = [⟨.pageA, "P0", .burnMsg 14.4 5 60 (.fin 1000) (.fin 1000) true⟩,
           ⟨.pageB, "P0", .burnMsg 6 30 360 (.fin 1000) (.fin 1000) true⟩,
           ⟨.ticketA, "P2", .burnMsg 3 120 1440 (.fin 1000) (.fin 1000) true⟩,
           ⟨.ticketB, "P2", .burnMsg 1 360 4320 (.fin 1000) (.fin 1000) true⟩] := by
      with_unfolding_all rfl
    rw [h]
    simp
  exact (C4_open_alert_dedup c1State [] 1 2 (fun _ => "u1") (fun _ => "u2")
    .pageA _ (fun t => by simp [openOfType]) (by simp [recordsOfType]) hc rfl).2.1

/-- Claim C9 counterexample: two evaluation passes over the identical
event history, identical policy configuration (bakeSLI, availability
target, latency target, lock fields), identical tier and identical
evaluation time produce different candidate alerts, because the
saturation demo check also reads the CPU gauge, which is neither
history nor policy. -/
theorem C9_counterexample_cpu_dependence :
    c9StateHi.logs = c9StateLo.logs
    ∧ c9StateHi.bakeSLI = c9StateLo.bakeSLI
    ∧ c9StateHi.availabilityTarget = c9StateLo.availabilityTarget
    ∧ c9StateHi.latencyP95Target = c9StateLo.latencyP95Target
    ∧ c9StateHi.lockExpected = c9StateLo.lockExpected
    ∧ c9StateHi.lockedSloTarget = c9StateLo.lockedSloTarget
    ∧ c9StateHi.sliAvailability = c9StateLo.sliAvailability
    ∧ c9StateHi.sliLatencyP95 = c9StateLo.sliLatencyP95
    ∧ c9StateHi.tier = c9StateLo.tier
    ∧ c9StateHi.now = c9StateLo.now
    ∧ checkAlertsCandidates c9StateHi ≠ checkAlertsCandidates c9StateLo := by
  refine ⟨rfl, rfl, rfl, rfl, rfl, rfl, rfl, rfl, rfl, rfl, ?_⟩
  have h1 : checkAlertsCandidates c9StateHi
      = [⟨.saturationDemo, "P2", .saturation 90⟩] := by with_unfolding_all rfl
  have h2 : checkAlertsCandidates c9StateLo = [] := by with_unfolding_all rfl
  rw [h1, h2]
  simp

/-- Claim C9 (amended): candidate-alert production is a deterministic
pure function of the event history, the policy configuration (bakeSLI
and the two targets), the SLI toggles, the tier, the CPU reading and
the evaluation time — it does not depend on the alert store, the score,
or the expected-display lock fields, and involves no randomness and no
retry. -/
theorem C9_deterministic_candidates (s₁ s₂ : EvalState)
    (hlogs : s₁.logs = s₂.logs) (htier : s₁.tier = s₂.tier)
    (hcpu : s₁.cpu = s₂.cpu)
    (hsa : s₁.sliAvailability = s₂.sliAvailability)
    (hsl : s₁.sliLatencyP95 = s₂.sliLatencyP95)
    (hb : s₁.bakeSLI = s₂.bakeSLI)
    (hat : s₁.availabilityTarget = s₂.availabilityTarget)
    (hlt : s₁.latencyP95Target = s₂.latencyP95Target)
    (hnow : s₁.now = s₂.now) :
    checkAlertsCandidates s₁ = checkAlertsCandidates s₂ := by
  cases s₁
  cases s₂
  dsimp only at hlogs htier hcpu hsa hsl hb hat hlt hnow
  subst hlogs
  subst htier
  subst hcpu
  subst hsa
  subst hsl
  subst hb
  subst hat
  subst hlt
  subst hnow
  rfl

/-- Witness for the amended C9: two states equal except for the alert
store, the score and the lock fields produce identical candidates. -/
theorem C9_deterministic_candidates_witness :
    checkAlertsCandidates c9StateHi
      = checkAlertsCandidates
          { c9StateHi with alerts := [wAlert], score := 42, lockExpected := true } :=
  C9_deterministic_candidates _ _ rfl rfl rfl rfl rfl rfl rfl rfl rfl

/-- Witness for C10 at the draw r = 1/2 (substituted latency 200). -/
theorem C10_manual_zero_latency_substituted_witness :
    (0 : ℚ) ≤ 1 / 2
    ∧ (pushManualLogEv (some 0) none none none (1 / 2) 0 800).latency_ms ≠ 0 := by
  refine ⟨by norm_num, ?_⟩
  exact (C10_manual_zero_latency_substituted (1 / 2) 1 (by norm_num) (by norm_num)).2.1

end SloBurnLab
